import Mathlib

/-!
Verification development for the storyboard-production repository.

The repository is a browser application orchestrating four remote
generative-AI operations (`distillStyle`, `deductStoryboard`, `renderShot`,
`removeWatermark`, all in `geminiService.ts`) behind a bounded-retry
wrapper (`withRetry`), plus a client-side production pipeline
(`handleDeduct`) and a per-image mask undo stack (`handleUndo`).

This file gives a shallow embedding of those parts and proves the spec
claims about them.  JavaScript strings are modelled by `String` (lists of
characters where list reasoning is needed), thrown errors by `Except`,
and the nondeterministic remote responses by explicit oracle arguments
(`fn k` = the outcome of the k-th invocation of the wrapped operation).
-/

namespace StoryboardSpec

/-- Outcome of one invocation of a wrapped asynchronous operation:
either a successful value or a thrown error, the error identified by its
textual representation (`error.toString()` in the source). -/
inductive Outcome (α : Type) where
  | ok (a : α)
  | err (e : String)
deriving DecidableEq

/-- What a full run of `withRetry` did: the final result (`Except.error x`
models `throw x`, where `x : Option String` is the thrown error's text,
`none` standing for the JavaScript `undefined`), how many times the
wrapped operation was invoked, and the list of delays (in milliseconds)
awaited between attempts, in order. -/
structure RunTrace (α : Type) where
  result : Except (Option String) α
  attempts : Nat
  delays : List Nat

/-- The delay awaited after the failure of attempt `i`
(source: `setTimeout(resolve, 5000 * (i + 1))` in `withRetry`). -/
def retryDelay (i : Nat) : Nat := 5000 * (i + 1)

/-- Substring test: `hasSubstr pat hay = true` iff `pat` occurs as a
contiguous substring of `hay`; models JavaScript `hay.includes(pat)`. -/
def hasSubstr (pat : List Char) : List Char → Bool
  | [] => pat.isEmpty
  | c :: rest => pat.isPrefixOf (c :: rest) || hasSubstr pat rest

/-- Character-wise lower-casing; models JavaScript `s.toLowerCase()`. -/
def strToLower (s : String) : String := ⟨s.data.map Char.toLower⟩

/-- The retry classification of `withRetry` (source:
`errorMsg.includes("429") || errorMsg.includes("quota")` applied to
`(error.toString() || "").toLowerCase()`). -/
def isQuotaRetryable (e : String) : Bool :=
  hasSubstr "429".data (strToLower e).data || hasSubstr "quota".data (strToLower e).data

/-- The loop of `withRetry`: `fuel` is the number of loop iterations left
(`maxRetries - i`), `i` the current attempt index, `lastError` the value
of the `lastError` variable (`none` = still `undefined`), `acc` the
delays awaited so far.  Mirrors
```
for (let i = 0; i < maxRetries; i++) {
  try { return await fn(); } catch (error) {
    lastError = error;
    const errorMsg = (error.toString() || "").toLowerCase();
    if ((errorMsg.includes("429") || errorMsg.includes("quota")) && i < maxRetries - 1) {
      await new Promise(resolve => setTimeout(resolve, 5000 * (i + 1)));
      continue;
    }
    throw error;
  }
}
throw lastError;
```
-/
def withRetryGo {α : Type} (fn : Nat → Outcome α) (maxRetries : Nat) :
    Nat → Nat → Option String → List Nat → RunTrace α
  | 0, i, lastError, acc => ⟨Except.error lastError, i, acc⟩
  | fuel + 1, i, _, acc =>
    match fn i with
    | Outcome.ok a => ⟨Except.ok a, i + 1, acc⟩
    | Outcome.err e =>
      if isQuotaRetryable e ∧ i < maxRetries - 1 then
        withRetryGo fn maxRetries fuel (i + 1) (some e) (acc ++ [retryDelay i])
      else ⟨Except.error (some e), i + 1, acc⟩

/-- Model of `withRetry(fn, maxRetries)` from `src/geminiService.ts`:
`fn k` is the outcome of the k-th invocation of the wrapped operation. -/
def withRetry {α : Type} (fn : Nat → Outcome α) (maxRetries : Nat) : RunTrace α :=
  withRetryGo fn maxRetries maxRetries 0 none []

/-- An operation that always fails with an error mentioning the
too-many-requests HTTP code. -/
def quotaFail : Nat → Outcome Nat := fun _ => Outcome.err "429 quota exceeded for model"

/-- An operation that always fails with an error whose text matches the
spec's wider quota vocabulary ("limit", "exhausted") but contains neither
"429" nor "quota". -/
def limitFail : Nat → Outcome Nat := fun _ => Outcome.err "Rate limit exceeded: resources exhausted"

/-- An operation whose first failure matches the quota vocabulary and
whose later failures do not. -/
def mixedFail : Nat → Outcome Nat := fun i =>
  if i = 0 then Outcome.err "429 quota exceeded for model"
  else Outcome.err "Rate limit exceeded: resources exhausted"

/-- One step of splitting a character list at commas: `cur` is the
(reversed) chunk read so far. -/
def splitOnCommaAux : List Char → List Char → List (List Char)
  | [], cur => [cur.reverse]
  | c :: rest, cur =>
    if c = ',' then cur.reverse :: splitOnCommaAux rest []
    else splitOnCommaAux rest (c :: cur)

/-- Models JavaScript `s.split(',')`: the list of maximal comma-free
chunks (empty chunks included). -/
def splitOnComma (s : List Char) : List (List Char) := splitOnCommaAux s []

/-- JavaScript truthiness of an optional string: `undefined` and the
empty string are falsy. -/
def jsTruthy : Option String → Option String
  | some s => if s = "" then none else some s
  | none => none

/-- Models the image-payload normalization used by all four remote
operations (source: `data.split(',')[1] || data`): the chunk after the
first comma if there is one and it is non-empty (truthy), otherwise the
input unchanged. -/
def normalizePayload (data : String) : String :=
  match (splitOnComma data.data)[1]? with
  | some t => if t = [] then data else ⟨t⟩
  | none => data

/-- Values of `detectedMedium` (types.ts). -/
inductive Medium where
  | illustration
  | photorealistic
  | unknown
deriving DecidableEq

/-- The two production modes (types.ts `ProductionMode`). -/
inductive ProductionMode where
  | anime
  | cinematic
deriving DecidableEq

/-- Speaker categories of a shot (types.ts `Shot.gender`). -/
inductive Gender where
  | male
  | female
  | child
  | narrator
deriving DecidableEq

/-- types.ts `StyleDistillation`. -/
structure StyleDistillation where
  summary : String
  keywords : String
  technicalParams : String
  colorPalette : String
  hexCodes : List String
  detectedMedium : Medium
deriving DecidableEq

/-- types.ts `AssetImage`. -/
structure AssetImage where
  url : String
  isActive : Bool
deriving DecidableEq

/-- Asset categories (types.ts `Asset.type`). -/
inductive AssetType where
  | character
  | scene
deriving DecidableEq

/-- types.ts `Asset`. -/
structure Asset where
  id : String
  name : String
  type : AssetType
  images : List AssetImage
  isActive : Bool
deriving DecidableEq

/-- types.ts `Shot`.  The optional video/audio fields
(`videoUrl`, `voiceB64`, `ambientB64`, `isVideoGenerating`,
`isAudioLoading`, `isAmbientLoading`, `groundingLinks`) are never touched
by the operations modelled here and are omitted; the optional Boolean
`isGenerating` is modelled as a `Bool` (absent = `false`). -/
structure Shot where
  id : String
  name : String
  composition : String
  flowLogic : String
  chineseDescription : String
  englishPrompt : String
  dialogue : String
  speaker : String
  gender : Gender
  emotion : String
  ambientSfx : String
  imageUrl : Option String
  isGenerating : Bool
deriving DecidableEq

/-- One part of an outgoing multi-part request: an inline image payload
(whose `mimeType` is the constant "image/jpeg" at every modelled call
site) or a text part. -/
inductive Part where
  | inlineData (data : String)
  | text (t : String)
deriving DecidableEq

/-- Source: `asset.images.find(img => img.isActive)?.url` in
`renderShot`: the url of the first active image of the asset, if any. -/
def getActiveImg (asset : Asset) : Option String :=
  (asset.images.find? (fun img => img.isActive)).map (fun img => img.url)

/-- The reference parts pushed for a list of assets in `renderShot`: for
each asset whose first active image exists and has a truthy (non-empty)
url — the source's `if (url)` guard — the normalized image payload
followed by a text label `<kind>: "<name>"`; assets with no active image
or a falsy url contribute nothing. -/
def referenceParts (kind : String) (assets : List Asset) : List Part :=
  assets.flatMap fun asset =>
    match jsTruthy (getActiveImg asset) with
    | some url =>
      [Part.inlineData (normalizePayload url),
       Part.text (kind ++ ": \"" ++ asset.name ++ "\"")]
    | none => []

/-- The medium-specific leading phrase of `renderShot`'s prompt. -/
def mediumLead : ProductionMode → String
  | ProductionMode.anime => "Masterpiece Anime Art, high quality illustration"
  | ProductionMode.cinematic =>
    "Award-winning Cinematic Photography, photorealistic, 8k, highly detailed skin texture, film grain"

/-- Models JavaScript `array.join(', ')`. -/
def joinComma : List String → String
  | [] => ""
  | [a] => a
  | a :: b :: rest => a ++ ", " ++ joinComma (b :: rest)

/-- The composed final prompt text of `renderShot` (source:
`finalPromptText`). -/
def finalPromptText (style : StyleDistillation) (prompt : String)
    (mode : ProductionMode) : String :=
  mediumLead mode ++ ", (Style: " ++ style.technicalParams ++ "), (Colors: "
    ++ joinComma style.hexCodes ++ "), " ++ prompt
    ++ ", cinematic lighting, dramatic atmosphere --no text, logo, watermark, anime, cartoon (if cinematic)"

/-- The full parts list assembled by `renderShot`: character references,
then scene references, then the final text prompt. -/
def renderShotParts (prompt : String) (style : StyleDistillation)
    (charAssets sceneAssets : List Asset) (mode : ProductionMode) : List Part :=
  (referenceParts "REFERENCE CHARACTER" charAssets
      ++ referenceParts "REFERENCE SCENE" sceneAssets)
    ++ [Part.text (finalPromptText style prompt mode)]

/-- The instruction text sent by `distillStyle`. -/
def distillPromptText : String :=
  "作为美术监督，请解构这些图。判断其媒介类型（photorealistic或illustration）。输出包含：媒介类型、风格总结、核心配色方案(3-5个HEX代码)、光效质感。"

/-- The parts list assembled by `distillStyle`: each input image
normalized, then the instruction text. -/
def distillStyleParts (imageB64s : List String) : List Part :=
  imageB64s.map (fun d => Part.inlineData (normalizePayload d))
    ++ [Part.text distillPromptText]

/-- The parts list assembled by `removeWatermark`: the normalized input
image; then, if a mask is supplied (truthy), the normalized mask and the
region-inpainting instruction, otherwise the whole-image instruction;
then the custom instruction if supplied (truthy). -/
def removeWatermarkParts (imageB64 : String) (maskB64 : Option String)
    (customInstruction : Option String) : List Part :=
  [Part.inlineData (normalizePayload imageB64)]
    ++ (match jsTruthy maskB64 with
        | some mask =>
          [Part.inlineData (normalizePayload mask),
           Part.text "URGENT: Based on this white-on-black mask, completely remove and inpaint the marked area to seamlessly match the surrounding textures, lighting, and details. Ensure no traces of text or logos remain."]
        | none =>
          [Part.text "Purify this image: remove all visible text, watermarks, and UI elements. Reconstruct the underlying pixels naturally."])
    ++ (match jsTruthy customInstruction with
        | some ci => [Part.text ci]
        | none => [])

/-- A concrete style profile used in witnesses and counterexamples. -/
def sampleStyle : StyleDistillation :=
  { summary := "ink wash"
    keywords := "ink, wash"
    technicalParams := "soft ink lines, muted palette"
    colorPalette := "ink and paper"
    hexCodes := ["#112233", "#445566"]
    detectedMedium := Medium.illustration }

/-- An asset with two active images: only the first is ever attached by
`renderShot`. -/
def twoImgAsset : Asset :=
  { id := "a1"
    name := "Hero"
    type := AssetType.character
    images := [⟨"imgA", true⟩, ⟨"imgB", true⟩]
    isActive := true }

/-- Structural-recursion form of core's decimal printing
(`Nat.toDigitsCore 10`), used to reason about the identifier strings
built with JavaScript template interpolation of `Date.now()` and indices. -/
def decDigits (n : Nat) : List Char :=
  if h : n / 10 = 0 then [Nat.digitChar (n % 10)]
  else decDigits (n / 10) ++ [Nat.digitChar (n % 10)]
decreasing_by exact Nat.div_lt_self (by omega) (by omega)

/-- The numeric value denoted by one decimal digit character. -/
def digitVal (c : Char) : Nat := c.toNat - 48

/-- The numeric value denoted by a decimal digit string. -/
def decVal (l : List Char) : Nat := l.foldl (fun a c => 10 * a + digitVal c) 0

/-- The identity assigned to the shot at position `idx` of a deduction
batch (source: `` id: `shot-${Date.now()}-${index}` `` in
`deductStoryboard`); `ts` is the clock value observed for that item. -/
def mkShotId (ts idx : Nat) : String :=
  "shot-" ++ Nat.repr ts ++ "-" ++ Nat.repr idx

/-- One item of the parsed deduction response: the fields required by the
declared response schema of `deductStoryboard`. -/
structure RawShot where
  name : String
  composition : String
  flowLogic : String
  chineseDescription : String
  englishPrompt : String
  dialogue : String
  speaker : String
  gender : Gender
  emotion : String
  ambientSfx : String
deriving DecidableEq

/-- The shot obtained from a parsed item by the spread
`{ ...item, id: ... }`: all schema fields copied, the fresh identity
added, image/generating state absent. -/
def shotOfRaw (item : RawShot) (id : String) : Shot :=
  { id := id
    name := item.name
    composition := item.composition
    flowLogic := item.flowLogic
    chineseDescription := item.chineseDescription
    englishPrompt := item.englishPrompt
    dialogue := item.dialogue
    speaker := item.speaker
    gender := item.gender
    emotion := item.emotion
    ambientSfx := item.ambientSfx
    imageUrl := none
    isGenerating := false }

/-- The indexed map of `deductStoryboard`'s response handling:
`parsed.map((item, index) => ({ ...item, id: shot-...-index }))`;
`ts idx` is the `Date.now()` value observed while processing item
`idx` (the source reads the clock once per item). -/
def assignIds (ts : Nat → Nat) : List RawShot → Nat → List Shot
  | [], _ => []
  | item :: rest, idx =>
    shotOfRaw item (mkShotId (ts idx) idx) :: assignIds ts rest (idx + 1)

/-- The full post-parse processing of a deduction response. -/
def deductProcess (items : List RawShot) (ts : Nat → Nat) : List Shot :=
  assignIds ts items 0

/-- Model of the response handling of `deductStoryboard(script, style,
count, mode)`: `parsed` is the JSON-parsed response array (`none` models
an unparseable body, whose `JSON.parse` failure is thrown).  The `count`
argument appears only inside the request prompt; the response handling
never compares the array's length against it, and performs no field
validation of its own. -/
def deductStoryboard (count : Nat) (parsed : Option (List RawShot))
    (ts : Nat → Nat) : Except String (List Shot) :=
  match parsed with
  | none => Except.error "SyntaxError: unparseable response"
  | some items => Except.ok (deductProcess items ts)

/-- Whether a deduction result is a success. -/
def resultOk : Except String (List Shot) → Bool
  | Except.ok _ => true
  | Except.error _ => false

/-- The number of shots carried by a successful deduction result. -/
def resultLength : Except String (List Shot) → Option Nat
  | Except.ok l => some l.length
  | Except.error _ => none

/-- A concrete parsed response item. -/
def sampleRaw : RawShot :=
  { name := "Scene"
    composition := "wide"
    flowLogic := "cut"
    chineseDescription := "描述"
    englishPrompt := "a hero"
    dialogue := "hi"
    speaker := "hero"
    gender := Gender.narrator
    emotion := "calm"
    ambientSfx := "wind" }

/-- Models JavaScript `s.trim()`: strip leading and trailing
whitespace. -/
def strTrim (s : String) : String :=
  ⟨((s.data.dropWhile Char.isWhitespace).reverse.dropWhile Char.isWhitespace).reverse⟩

/-- Models JavaScript `s.startsWith(pat)`. -/
def strStartsWith (s pat : String) : Bool :=
  pat.data.isPrefixOf s.data

/-- The pipeline states of the app (types.ts `AppStatus`). -/
inductive AppStatus where
  | IDLE
  | DISTILLING
  | DEDUCTING
  | ERROR
deriving DecidableEq

/-- The part of the App component's state read and written by
`handleDeduct`: the script text, the distilled style, the shot sequence,
the pipeline status, the two validation-error highlight flags, and the
director log (newest message first; the source's timestamp header and
20-entry truncation of `log()` are omitted). -/
structure PipelineState where
  script : String
  style : Option StyleDistillation
  shots : List Shot
  status : AppStatus
  valErrScript : Bool
  valErrStyle : Bool
  log : List String
deriving DecidableEq

/-- A remote-capability invocation made during a `handleDeduct` run. -/
inductive RemoteCall where
  | deduct (script : String) (count : Nat)
  | render (finalPrompt : String)
deriving DecidableEq

/-- The placeholder shot prepended at position `i` of a deduction run
(source: the `placeholders` array literal in `handleDeduct`); `ts` is
the `Date.now()` reading for that element. -/
def placeholderShot (ts i : Nat) : Shot :=
  { id := "placeholder-" ++ Nat.repr ts ++ "-" ++ Nat.repr i
    name := "Scene 0" ++ Nat.repr (i + 1)
    composition := "Rendering"
    flowLogic := ""
    chineseDescription := "正在分析导演意图..."
    englishPrompt := ""
    dialogue := ""
    speaker := ""
    gender := Gender.narrator
    emotion := ""
    ambientSfx := ""
    imageUrl := none
    isGenerating := true }

/-- Log line for an empty script (`⚠️ 生产阻塞：[Scenario Studio] …`). -/
def scriptBlockMsg : String := "⚠️ 生产阻塞：[Scenario Studio] 剧本内容为空。"

/-- Log line for a missing style (`⚠️ 生产阻塞：[Visual DNA] …`). -/
def styleBlockMsg : String :=
  "⚠️ 生产阻塞：[Visual DNA] 视觉基因尚未解构。请先在左侧上传参考图并点击“启动视觉解构”。"

/-- Header of the log line surfacing a deduction failure. -/
def deductFailMsgHead : String := "❌ 推演异常："

/-- Log line announcing the start of a deduction run. -/
def deductStartMsg (count : Nat) : String :=
  "🎬 启动推演：生产 " ++ Nat.repr count ++ " 组分镜..."

/-- Log line on completion of a deduction run. -/
def deductDoneMsg : String := "✅ 任务圆满交付。"

/-- Log line emitted when one shot's render fails. -/
def renderBusyMsg : String := "⚠️ 渲染引擎繁忙，正在重试。"

/-- The keyed shot update performed after a successful render (source:
`setShots(prev => prev.map(s => s.id === shot.id ?
{ ...s, imageUrl: url, isGenerating: false } : s))`). -/
def applyRender (shots : List Shot) (shotId url : String) : List Shot :=
  shots.map fun s =>
    if s.id = shotId then { s with imageUrl := some url, isGenerating := false } else s

/-- The per-shot render loop of `handleDeduct`: iterates over the
deduced shots in order; `renderResult i` is the outcome of the render
call for the shot at position `i`; a failure is only logged and the loop
continues.  Returns the final shot sequence, the log, and the trace of
render calls made.  (The fixed 1500 ms inter-request delay has no
state effect and is not recorded.) -/
def renderLoopGo (renderResult : Nat → Except String String) (freePrompt : String) :
    List Shot → Nat → List Shot → List String →
      List Shot × List String × List RemoteCall
  | [], _, shots, logs => (shots, logs, [])
  | shot :: rest, i, shots, logs =>
    let finalPrompt :=
      shot.englishPrompt ++ (if freePrompt = "" then "" else ", " ++ freePrompt)
    match renderResult i with
    | Except.ok url =>
      let r := renderLoopGo renderResult freePrompt rest (i + 1)
        (applyRender shots shot.id url) logs
      (r.1, r.2.1, RemoteCall.render finalPrompt :: r.2.2)
    | Except.error _ =>
      let r := renderLoopGo renderResult freePrompt rest (i + 1) shots
        (renderBusyMsg :: logs)
      (r.1, r.2.1, RemoteCall.render finalPrompt :: r.2.2)

/-- Model of `handleDeduct` from the App component (from the point after
the API-key-selection guard, which precedes the pipeline proper):
validates the preconditions; on violation logs the blocking message(s),
raises the highlight flag(s) and stops with no remote call; otherwise
prepends `shotCount` placeholder shots, invokes the deduction
(`deductResult` is its outcome, already carrying the assigned shot
identities), on failure strips the placeholders and surfaces the error,
on success replaces the placeholders with the deduced shots (flagged
generating) and runs the per-shot render loop; the status ends `IDLE`
either way (`finally`).  `phTs i` is the clock reading for placeholder
`i`.  Returns the new state and the trace of remote calls made. -/
def handleDeduct (st : PipelineState) (shotCount : Nat) (phTs : Nat → Nat)
    (deductResult : Except String (List Shot))
    (renderResult : Nat → Except String String) (freePrompt : String) :
    PipelineState × List RemoteCall :=
  let isScriptMissing := strTrim st.script = ""
  let isStyleMissing := st.style.isNone
  if isScriptMissing ∨ isStyleMissing then
    let st1 :=
      if isScriptMissing then
        { st with log := scriptBlockMsg :: st.log, valErrScript := true }
      else st
    let st2 :=
      if isStyleMissing then
        { st1 with log := styleBlockMsg :: st1.log, valErrStyle := true }
      else st1
    (st2, [])
  else
    let placeholders := (List.range shotCount).map (fun i => placeholderShot (phTs i) i)
    let shots1 := placeholders ++ st.shots
    let log1 := deductStartMsg shotCount :: st.log
    match deductResult with
    | Except.error e =>
      ({ st with
          shots := shots1.filter (fun s => ! strStartsWith s.id "placeholder-")
          status := AppStatus.IDLE
          log := (deductFailMsgHead ++ e) :: log1 },
       [RemoteCall.deduct st.script shotCount])
    | Except.ok newShots =>
      let afterReplace :=
        newShots.map (fun s => { s with isGenerating := true })
          ++ shots1.filter (fun s => ! strStartsWith s.id "placeholder-")
      let r := renderLoopGo renderResult freePrompt newShots 0 afterReplace log1
      ({ st with
          shots := r.1
          status := AppStatus.IDLE
          log := deductDoneMsg :: r.2.1 },
       RemoteCall.deduct st.script shotCount :: r.2.2)

/-- A ready pipeline state: non-blank script and a present style. -/
def idleState : PipelineState :=
  { script := "英雄进入城市"
    style := some sampleStyle
    shots := []
    status := AppStatus.IDLE
    valErrScript := false
    valErrStyle := false
    log := [] }

/-- The same state with a whitespace-only script. -/
def blankScriptState : PipelineState := { idleState with script := "   " }

/-- Two concrete deduced shots with distinct identities. -/
def sampleShotA : Shot := shotOfRaw sampleRaw "s0"

/-- Second concrete deduced shot. -/
def sampleShotB : Shot := shotOfRaw sampleRaw "s1"

/-- A render oracle whose first call fails and later calls succeed. -/
def failFirstRender : Nat → Except String String :=
  fun i => if i = 0 then Except.error "busy" else Except.ok "data:image/png;base64,ok"

/-- The state read and written by `handleUndo`: the active source image
(`purifyInput`), the per-image snapshot sequences (`maskHistory`, a key
absent from the record giving `[]`, as `maskHistory[purifyInput] || []`
does), and the mask canvas content: `none` models the canvas cleared to
the black baseline, `some s` models the black fill overdrawn with
snapshot `s`.  The model assumes the canvas element and its 2d context
exist (the source's `ctx &&` guards). -/
structure UndoState where
  purifyInput : Option String
  maskHistory : String → List String
  canvas : Option String

/-- Model of `handleUndo` from the App component: with no active image
it does nothing; with snapshot sequence of length ≤ 1 it clears the
canvas to black and empties the sequence; otherwise it drops the last
snapshot (`history.slice(0, -1)`) and redraws the new last one — but the
source's `if (ctx && lastState)` guard skips the redraw when that
snapshot is the (falsy) empty string, leaving the canvas as it was. -/
def handleUndo (st : UndoState) : UndoState :=
  match st.purifyInput with
  | none => st
  | some input =>
    let history := st.maskHistory input
    if history.length ≤ 1 then
      { st with
          canvas := none
          maskHistory := fun k => if k = input then [] else st.maskHistory k }
    else
      let nextHistory := history.dropLast
      let canvas' :=
        match nextHistory.getLast? with
        | some lastState => if lastState = "" then st.canvas else some lastState
        | none => st.canvas
      { st with
          canvas := canvas'
          maskHistory := fun k => if k = input then nextHistory else st.maskHistory k }

/-- An undo state whose active image has a single snapshot. -/
def undoStateShort : UndoState :=
  { purifyInput := some "img.png"
    maskHistory := fun k => if k = "img.png" then ["snap1"] else []
    canvas := some "snap1" }

/-- An undo state whose active image has two snapshots. -/
def undoStateLong : UndoState :=
  { purifyInput := some "img.png"
    maskHistory := fun k => if k = "img.png" then ["snap1", "snap2"] else []
    canvas := some "snap2" }

/-- Containment: `containsStr hay pat` holds iff `pat` occurs contiguously inside `hay`. -/
def containsStr (hay pat : String) : Prop :=
  ∃ u v : List Char, hay.data = u ++ pat.data ++ v

/-! ## Theorems -/

/-- The delays recorded by the retry loop are always the consecutive
values `retryDelay 0, retryDelay 1, …`, because a delay is awaited before
every attempt after the first one that is reached. -/
theorem withRetryGo_delays_shape {α : Type} (fn : Nat → Outcome α) (m : Nat) :
    ∀ fuel i lastErr, ∃ k,
      (withRetryGo fn m fuel i lastErr ((List.range i).map retryDelay)).delays
        = (List.range k).map retryDelay := by
  intro fuel
  induction fuel with
  | zero => intro i lastErr; exact ⟨i, rfl⟩
  | succ fuel ih =>
    intro i lastErr
    simp only [withRetryGo]
    cases fn i with
    | ok a => exact ⟨i, rfl⟩
    | err e =>
      by_cases hc : isQuotaRetryable e = true ∧ i < m - 1
      · simp only [if_pos hc]
        have hacc : (List.range i).map retryDelay ++ [retryDelay i]
            = (List.range (i + 1)).map retryDelay := by
          rw [List.range_succ, List.map_append]; rfl
        rw [hacc]
        exact ih (i + 1) (some e)
      · simp only [if_neg hc]
        exact ⟨i, rfl⟩

/-- The delay list of a full `withRetry` run lists `retryDelay 0, 1, …`
in order. -/
theorem withRetry_delays_shape {α : Type} (fn : Nat → Outcome α) (m : Nat) :
    (withRetry fn m).delays
      = (List.range (withRetry fn m).delays.length).map retryDelay := by
  have h : ∃ k, (withRetry fn m).delays = (List.range k).map retryDelay := by
    have := withRetryGo_delays_shape fn m m 0 none
    simpa [withRetry] using this
  obtain ⟨k, hk⟩ := h
  rw [hk]
  simp

/-- C1 (amended): in `withRetry`, the delay awaited before retry `i+1` is
`5000 * (i + 1)` milliseconds — it grows linearly with the attempt index
(base 5000 ms times attempt number), not exponentially. -/
theorem withRetry_delay_linear {α : Type} (fn : Nat → Outcome α) (m idx : Nat)
    (h : idx < (withRetry fn m).delays.length) :
    (withRetry fn m).delays.getD idx 0 = 5000 * (idx + 1) := by
  conv_lhs => rw [withRetry_delays_shape fn m]
  rw [List.getD_eq_getElem _ _ (by simpa using h)]
  simp [retryDelay]

/-- Witness for `withRetry_delay_linear` at a concrete run: four attempts
against an always-quota-failing operation wait 10000 ms before the third
attempt. -/
theorem withRetry_delay_linear_witness :
    1 < (withRetry quotaFail 4).delays.length ∧
      (withRetry quotaFail 4).delays.getD 1 0 = 5000 * (1 + 1) :=
  ⟨by decide, withRetry_delay_linear quotaFail 4 1 (by decide)⟩

/-- C1 counterexample: the delays of a concrete `withRetry` run
(5000, 10000, 15000 ms) do not fit any law `floor + base * 2 ^ attempt`:
the backoff of the source is linear, not exponential. -/
theorem withRetry_delay_not_exponential :
    ¬ ∃ b c : Nat, 0 < b ∧ ∀ idx, idx < (withRetry quotaFail 4).delays.length →
        (withRetry quotaFail 4).delays.getD idx 0 = c + b * 2 ^ idx := by
  rintro ⟨b, c, hb, h⟩
  have hlen : (withRetry quotaFail 4).delays = [5000, 10000, 15000] := by decide
  have h0 := h 0 (by rw [hlen]; decide)
  have h1 := h 1 (by rw [hlen]; decide)
  have h2 := h 2 (by rw [hlen]; decide)
  rw [hlen] at h0 h1 h2
  simp [List.getD] at h0 h1 h2
  omega

/-- As long as every attempt index `< N` fails with an error matching the
code's quota vocabulary (substrings "429"/"quota" of the lower-cased
text), the loop keeps retrying, so at least `min m N` attempts happen. -/
theorem withRetryGo_attempts_ge {α : Type} (fn : Nat → Outcome α) (m N : Nat)
    (hN : ∀ k, k < N → ∃ e, fn k = Outcome.err e ∧ isQuotaRetryable e = true) :
    ∀ fuel i lastErr acc, i + fuel = m →
      min m N ≤ (withRetryGo fn m fuel i lastErr acc).attempts := by
  intro fuel
  induction fuel with
  | zero =>
    intro i lastErr acc him
    simp only [withRetryGo]
    omega
  | succ fuel ih =>
    intro i lastErr acc him
    simp only [withRetryGo]
    by_cases hiN : i < N
    · obtain ⟨e, hfn, hret⟩ := hN i hiN
      rw [hfn]
      by_cases hc : isQuotaRetryable e = true ∧ i < m - 1
      · simp only [if_pos hc]
        exact ih (i + 1) (some e) (acc ++ [retryDelay i]) (by omega)
      · simp only [if_neg hc]
        have : ¬ i < m - 1 := fun hlt => hc ⟨hret, hlt⟩
        show min m N ≤ i + 1
        omega
    · cases fn i with
      | ok a => show min m N ≤ i + 1; omega
      | err e =>
        by_cases hc : isQuotaRetryable e = true ∧ i < m - 1
        · simp only [if_pos hc]
          exact ih (i + 1) (some e) (acc ++ [retryDelay i]) (by omega)
        · simp only [if_neg hc]
          omega

/-- As long as every failure before attempt `i` matched the quota
vocabulary (and `i < maxRetries`), the run reaches attempt `i`, having
waited the delays of retries `0 … i-1`. -/
theorem withRetry_reaches {α : Type} (fn : Nat → Outcome α) (m : Nat) :
    ∀ i, i < m → (∀ k, k < i → ∃ e, fn k = Outcome.err e ∧ isQuotaRetryable e = true) →
      ∃ le, withRetry fn m
        = withRetryGo fn m (m - i) i le ((List.range i).map retryDelay) := by
  intro i
  induction i with
  | zero => intro _ _; exact ⟨none, by simp [withRetry]⟩
  | succ i ih =>
    intro hi hpre
    obtain ⟨le, hle⟩ := ih (by omega) (fun k hk => hpre k (by omega))
    obtain ⟨e, he, hret⟩ := hpre i (by omega)
    refine ⟨some e, ?_⟩
    rw [hle]
    have hmi : m - i = (m - (i + 1)) + 1 := by omega
    rw [hmi]
    simp only [withRetryGo, he]
    rw [if_pos ⟨hret, (by omega : i < m - 1)⟩]
    simp [List.range_succ]

/-- C2 (amended): the quota vocabulary of `withRetry` consists exactly of
the case-insensitive substrings "429" and "quota".  If the first `N`
failures all match it, the wrapper attempts at least `min maxRetries N`
times; an error that does not match it — at whatever attempt it occurs,
even after earlier matching retries — is propagated immediately, with no
further attempt and no further delay; and when attempts are exhausted
(every earlier failure matching), the last attempt's error is propagated
immediately as well. -/
theorem withRetry_quota_vocabulary_attempts {α : Type} (fn : Nat → Outcome α)
    (m N : Nat)
    (hN : ∀ k, k < N → ∃ e, fn k = Outcome.err e ∧ isQuotaRetryable e = true) :
    min m N ≤ (withRetry fn m).attempts ∧
    (∀ i e, i < m →
      (∀ k, k < i → ∃ ek, fn k = Outcome.err ek ∧ isQuotaRetryable ek = true) →
      fn i = Outcome.err e → isQuotaRetryable e = false →
      (withRetry fn m).result = Except.error (some e) ∧
      (withRetry fn m).attempts = i + 1 ∧
      (withRetry fn m).delays.length = i) ∧
    (∀ e, 1 ≤ m →
      (∀ k, k < m - 1 → ∃ ek, fn k = Outcome.err ek ∧ isQuotaRetryable ek = true) →
      fn (m - 1) = Outcome.err e →
      (withRetry fn m).result = Except.error (some e) ∧
      (withRetry fn m).attempts = m) := by
  refine ⟨withRetryGo_attempts_ge fn m N hN m 0 none [] (by omega), ?_, ?_⟩
  · intro i e hi hpre he hret
    obtain ⟨le, hrun⟩ := withRetry_reaches fn m i hi hpre
    have hmi : m - i = (m - (i + 1)) + 1 := by omega
    rw [hrun, hmi]
    simp only [withRetryGo, he]
    rw [if_neg (fun hc => absurd hc.1 (by simp [hret]))]
    exact ⟨rfl, rfl, by simp⟩
  · intro e hm hpre he
    obtain ⟨le, hrun⟩ := withRetry_reaches fn m (m - 1) (by omega) hpre
    have h1 : m - (m - 1) = 1 := by omega
    rw [hrun, h1]
    simp only [withRetryGo, he]
    rw [if_neg (fun hc => absurd hc.2 (by omega))]
    exact ⟨rfl, by show m - 1 + 1 = m; omega⟩

/-- Witness for `withRetry_quota_vocabulary_attempts`: a "429 quota"
error is retried (3 attempts out of 3 against straight matching
failures); a "rate limit / exhausted" error arriving at attempt 1 after
a matching retry is propagated at once (2 attempts, a single delay); and
with two attempts exhausted on matching errors the last one is
propagated. -/
theorem withRetry_quota_vocabulary_attempts_witness :
    min 3 5 ≤ (withRetry quotaFail 3).attempts ∧
    ((withRetry mixedFail 3).result
        = Except.error (some "Rate limit exceeded: resources exhausted") ∧
      (withRetry mixedFail 3).attempts = 2 ∧
      (withRetry mixedFail 3).delays.length = 1) ∧
    ((withRetry quotaFail 2).result
        = Except.error (some "429 quota exceeded for model") ∧
      (withRetry quotaFail 2).attempts = 2) :=
  ⟨(withRetry_quota_vocabulary_attempts quotaFail 3 5
      (fun _ _ => ⟨"429 quota exceeded for model", rfl, by decide⟩)).1,
   (withRetry_quota_vocabulary_attempts mixedFail 3 0
      (fun k hk => absurd hk (Nat.not_lt_zero k))).2.1
     1 "Rate limit exceeded: resources exhausted" (by omega)
     (fun k hk => by
       have hk0 : k = 0 := by omega
       subst hk0
       exact ⟨"429 quota exceeded for model", rfl, by decide⟩)
     rfl (by decide),
   (withRetry_quota_vocabulary_attempts quotaFail 2 0
      (fun k hk => absurd hk (Nat.not_lt_zero k))).2.2
     "429 quota exceeded for model" (by omega)
     (fun _ _ => ⟨"429 quota exceeded for model", rfl, by decide⟩) rfl⟩

/-- C2 counterexample: an error whose text contains the spec vocabulary
words "limit" and "exhausted" (but neither "429" nor "quota") is NOT
retried: with `maxRetries = 3` and every invocation failing with it, only
one attempt happens, not `min 3 N ≥ 2`. -/
theorem withRetry_limit_vocabulary_not_retried :
    hasSubstr "limit".data
        (strToLower "Rate limit exceeded: resources exhausted").data = true ∧
    hasSubstr "exhausted".data
        (strToLower "Rate limit exceeded: resources exhausted").data = true ∧
    (withRetry limitFail 3).attempts = 1 ∧
    ¬ min 3 2 ≤ (withRetry limitFail 3).attempts := by
  refine ⟨by decide, by decide, by decide, by decide⟩

/-- C9 (amended): with one configured attempt, the operation runs exactly
once and its first failure is propagated immediately with no delay; with
zero configured attempts, the operation is never invoked (zero attempts)
and the wrapper throws the still-undefined `lastError` (`none`), so the
operation's own failure is not what is propagated. -/
theorem withRetry_zero_one_no_retry {α : Type} (fn : Nat → Outcome α) (e : String)
    (h0 : fn 0 = Outcome.err e) :
    ((withRetry fn 1).result = Except.error (some e) ∧
      (withRetry fn 1).attempts = 1 ∧ (withRetry fn 1).delays = []) ∧
    ((withRetry fn 0).result = Except.error none ∧
      (withRetry fn 0).attempts = 0 ∧ (withRetry fn 0).delays = []) := by
  constructor
  · simp [withRetry, withRetryGo, h0]
  · simp [withRetry, withRetryGo]

/-- Witness for `withRetry_zero_one_no_retry` at a concrete failing
operation. -/
theorem withRetry_zero_one_no_retry_witness :
    ((withRetry quotaFail 1).result
        = Except.error (some "429 quota exceeded for model") ∧
      (withRetry quotaFail 1).attempts = 1 ∧ (withRetry quotaFail 1).delays = []) ∧
    ((withRetry quotaFail 0).result = Except.error none ∧
      (withRetry quotaFail 0).attempts = 0 ∧ (withRetry quotaFail 0).delays = []) :=
  withRetry_zero_one_no_retry quotaFail "429 quota exceeded for model" rfl

/-- C9 counterexample: with zero configured attempts the first failure of
the operation is NOT propagated — the operation is never even invoked,
and the thrown value is the undefined initial `lastError`, not the
operation's error. -/
theorem withRetry_zero_attempts_no_propagation :
    (withRetry quotaFail 0).result
        ≠ Except.error (some "429 quota exceeded for model") ∧
    (withRetry quotaFail 0).attempts = 0 := by
  constructor
  · simp [withRetry, withRetryGo]
  · rfl

/-- Splitting a comma-free list yields one chunk. -/
theorem splitOnCommaAux_no_comma :
    ∀ (s cur : List Char), ',' ∉ s → splitOnCommaAux s cur = [cur.reverse ++ s]
  | [], cur, _ => by simp [splitOnCommaAux]
  | c :: rest, cur, h => by
    have hc : ¬ (c = ',') := by rintro rfl; exact h (List.mem_cons_self _ _)
    simp only [splitOnCommaAux, if_neg hc]
    rw [splitOnCommaAux_no_comma rest (c :: cur) (fun hm => h (List.mem_cons_of_mem _ hm))]
    simp

/-- Splitting at the first comma: the part before it (comma-free) becomes
the first chunk. -/
theorem splitOnCommaAux_comma :
    ∀ (a b cur : List Char), ',' ∉ a →
      splitOnCommaAux (a ++ ',' :: b) cur = (cur.reverse ++ a) :: splitOnComma b
  | [], b, cur, _ => by simp [splitOnCommaAux, splitOnComma]
  | c :: a', b, cur, h => by
    have hc : ¬ (c = ',') := by rintro rfl; exact h (List.mem_cons_self _ _)
    simp only [List.cons_append, splitOnCommaAux, if_neg hc, List.append_eq]
    rw [splitOnCommaAux_comma a' b (c :: cur) (fun hm => h (List.mem_cons_of_mem _ hm))]
    simp

/-- C4 (amended): the normalization `data.split(',')[1] || data` is the
identity on a raw comma-free payload, and strips the data-URL prefix
exactly whenever the payload after the comma is non-empty; a data URL
with an empty payload is passed through whole (the `|| data` fallback
fires on the empty, falsy, chunk). -/
theorem normalizePayload_spec (p pre : String)
    (hp : ',' ∉ p.data) (hpre : ',' ∉ pre.data) (hne : p ≠ "") :
    normalizePayload p = p ∧ normalizePayload (pre ++ "," ++ p) = p := by
  have hpd : p.data ≠ [] := by
    intro hnil
    exact hne (String.ext hnil)
  constructor
  · unfold normalizePayload
    rw [splitOnComma, splitOnCommaAux_no_comma p.data [] hp]
    rfl
  · have hdata : (pre ++ "," ++ p).data = pre.data ++ ',' :: p.data := by
      rw [String.data_append, String.data_append]
      simp
    unfold normalizePayload
    rw [hdata, splitOnComma, splitOnCommaAux_comma pre.data p.data [] hpre,
      splitOnComma, splitOnCommaAux_no_comma p.data [] hp]
    simp only [List.reverse_nil, List.nil_append, List.getElem?_cons_succ,
      List.getElem?_cons_zero]
    rw [if_neg hpd]

/-- Witness for `normalizePayload_spec` on a concrete base64 payload. -/
theorem normalizePayload_spec_witness :
    normalizePayload "aGVsbG8=" = "aGVsbG8=" ∧
      normalizePayload ("data:image/jpeg;base64" ++ "," ++ "aGVsbG8=") = "aGVsbG8=" :=
  normalizePayload_spec "aGVsbG8=" "data:image/jpeg;base64"
    (by decide) (by decide) (by decide)

/-- C4 counterexample: a data URL carrying an empty payload is not
stripped to its (empty) payload — the whole data URL, prefix included, is
placed into the request. -/
theorem normalizePayload_empty_payload_not_stripped :
    normalizePayload ("data:image/jpeg;base64" ++ "," ++ "") ≠ "" ∧
      normalizePayload ("data:image/jpeg;base64" ++ "," ++ "")
        = "data:image/jpeg;base64," := by
  constructor
  · decide
  · decide

/-- Every member of a joined list occurs inside the join. -/
theorem joinComma_mem_sub (hx : String) : ∀ (l : List String), hx ∈ l →
    ∃ u v : List Char, (joinComma l).data = u ++ hx.data ++ v
  | [], h => absurd h (List.not_mem_nil _)
  | [a], h => by
    have ha : hx = a := by simpa using h
    subst ha
    exact ⟨[], [], by simp [joinComma]⟩
  | a :: b :: rest, h => by
    rcases List.mem_cons.mp h with ha | htail
    · subst ha
      refine ⟨[], ", ".data ++ (joinComma (b :: rest)).data, ?_⟩
      simp [joinComma, String.data_append, List.append_assoc]
    · obtain ⟨u, v, huv⟩ := joinComma_mem_sub hx (b :: rest) htail
      refine ⟨a.data ++ ", ".data ++ u, v, ?_⟩
      simp [joinComma, String.data_append, huv, List.append_assoc]

/-- C5 (amended): the request assembled by `renderShot` contains, for the
FIRST active image of each supplied character/scene asset whose url is
truthy (non-empty — the source's `if (url)` guard), that normalized
image followed by an identity label naming the asset; the final part is
the composed text prompt, which contains the medium-specific lead, the
style's technical parameters, every entry of the style's hex palette,
the literal shot prompt, and the negative-constraint phrase
"--no text, logo, watermark". -/
theorem renderShot_request_spec (prompt : String) (style : StyleDistillation)
    (charAssets sceneAssets : List Asset) (mode : ProductionMode) :
    (∀ asset ∈ charAssets, ∀ url, getActiveImg asset = some url → ¬ url = "" →
        Part.inlineData (normalizePayload url)
            ∈ renderShotParts prompt style charAssets sceneAssets mode ∧
        Part.text ("REFERENCE CHARACTER" ++ ": \"" ++ asset.name ++ "\"")
            ∈ renderShotParts prompt style charAssets sceneAssets mode) ∧
    (∀ asset ∈ sceneAssets, ∀ url, getActiveImg asset = some url → ¬ url = "" →
        Part.inlineData (normalizePayload url)
            ∈ renderShotParts prompt style charAssets sceneAssets mode ∧
        Part.text ("REFERENCE SCENE" ++ ": \"" ++ asset.name ++ "\"")
            ∈ renderShotParts prompt style charAssets sceneAssets mode) ∧
    (renderShotParts prompt style charAssets sceneAssets mode).getLast?
        = some (Part.text (finalPromptText style prompt mode)) ∧
    (∀ hx ∈ style.hexCodes, containsStr (finalPromptText style prompt mode) hx) ∧
    containsStr (finalPromptText style prompt mode) prompt ∧
    containsStr (finalPromptText style prompt mode) "--no text, logo, watermark" ∧
    containsStr (finalPromptText style prompt mode) style.technicalParams ∧
    containsStr (finalPromptText style prompt mode) (mediumLead mode) := by
  refine ⟨?_, ?_, ?_, ?_, ?_, ?_, ?_, ?_⟩
  · intro asset ha url hurl hne
    have hmem : ∀ x ∈ ([Part.inlineData (normalizePayload url),
        Part.text ("REFERENCE CHARACTER" ++ ": \"" ++ asset.name ++ "\"")] : List Part),
        x ∈ renderShotParts prompt style charAssets sceneAssets mode := by
      intro x hx
      apply List.mem_append_left
      apply List.mem_append_left
      refine List.mem_flatMap.mpr ⟨asset, ha, ?_⟩
      rw [hurl]
      simp only [jsTruthy]
      rw [if_neg hne]
      exact hx
    exact ⟨hmem _ (by simp), hmem _ (by simp)⟩
  · intro asset ha url hurl hne
    have hmem : ∀ x ∈ ([Part.inlineData (normalizePayload url),
        Part.text ("REFERENCE SCENE" ++ ": \"" ++ asset.name ++ "\"")] : List Part),
        x ∈ renderShotParts prompt style charAssets sceneAssets mode := by
      intro x hx
      apply List.mem_append_left
      apply List.mem_append_right
      refine List.mem_flatMap.mpr ⟨asset, ha, ?_⟩
      rw [hurl]
      simp only [jsTruthy]
      rw [if_neg hne]
      exact hx
    exact ⟨hmem _ (by simp), hmem _ (by simp)⟩
  · simp [renderShotParts]
  · intro hx hhx
    obtain ⟨u, v, huv⟩ := joinComma_mem_sub hx style.hexCodes hhx
    refine ⟨(mediumLead mode ++ ", (Style: " ++ style.technicalParams
        ++ "), (Colors: ").data ++ u,
      v ++ ("), " ++ prompt
        ++ ", cinematic lighting, dramatic atmosphere --no text, logo, watermark, anime, cartoon (if cinematic)").data, ?_⟩
    simp [finalPromptText, String.data_append, huv, List.append_assoc]
  · refine ⟨(mediumLead mode ++ ", (Style: " ++ style.technicalParams
        ++ "), (Colors: " ++ joinComma style.hexCodes ++ "), ").data,
      (", cinematic lighting, dramatic atmosphere --no text, logo, watermark, anime, cartoon (if cinematic)" : String).data, ?_⟩
    simp [finalPromptText, String.data_append, List.append_assoc]
  · have hs : (", cinematic lighting, dramatic atmosphere --no text, logo, watermark, anime, cartoon (if cinematic)" : String).data
        = (", cinematic lighting, dramatic atmosphere " : String).data
          ++ ("--no text, logo, watermark" : String).data
          ++ (", anime, cartoon (if cinematic)" : String).data := by decide
    refine ⟨(mediumLead mode ++ ", (Style: " ++ style.technicalParams
        ++ "), (Colors: " ++ joinComma style.hexCodes ++ "), " ++ prompt
        ++ ", cinematic lighting, dramatic atmosphere ").data,
      (", anime, cartoon (if cinematic)" : String).data, ?_⟩
    simp [finalPromptText, String.data_append, List.append_assoc, hs]
  · refine ⟨(mediumLead mode ++ ", (Style: " : String).data,
      ("), (Colors: " ++ joinComma style.hexCodes ++ "), " ++ prompt
        ++ ", cinematic lighting, dramatic atmosphere --no text, logo, watermark, anime, cartoon (if cinematic)").data, ?_⟩
    simp [finalPromptText, String.data_append, List.append_assoc]
  · refine ⟨[], (", (Style: " ++ style.technicalParams ++ "), (Colors: "
        ++ joinComma style.hexCodes ++ "), " ++ prompt
        ++ ", cinematic lighting, dramatic atmosphere --no text, logo, watermark, anime, cartoon (if cinematic)").data, ?_⟩
    simp [finalPromptText, String.data_append, List.append_assoc]

/-- Witness for `renderShot_request_spec`, at the spec's own scenario:
hex palette ["#112233", "#445566"] and prompt "hero enters". -/
theorem renderShot_request_spec_witness :
    Part.inlineData (normalizePayload "imgA")
        ∈ renderShotParts "hero enters" sampleStyle [twoImgAsset] [] ProductionMode.anime ∧
    containsStr (finalPromptText sampleStyle "hero enters" ProductionMode.anime) "#112233" ∧
    containsStr (finalPromptText sampleStyle "hero enters" ProductionMode.anime) "#445566" ∧
    containsStr (finalPromptText sampleStyle "hero enters" ProductionMode.anime) "hero enters" ∧
    containsStr (finalPromptText sampleStyle "hero enters" ProductionMode.anime)
      "--no text, logo, watermark" :=
  ⟨((renderShot_request_spec "hero enters" sampleStyle [twoImgAsset] []
        ProductionMode.anime).1 twoImgAsset (by simp) "imgA" (by decide) (by decide)).1,
   (renderShot_request_spec "hero enters" sampleStyle [twoImgAsset] []
        ProductionMode.anime).2.2.2.1 "#112233" (by decide),
   (renderShot_request_spec "hero enters" sampleStyle [twoImgAsset] []
        ProductionMode.anime).2.2.2.1 "#445566" (by decide),
   (renderShot_request_spec "hero enters" sampleStyle [twoImgAsset] []
        ProductionMode.anime).2.2.2.2.1,
   (renderShot_request_spec "hero enters" sampleStyle [twoImgAsset] []
        ProductionMode.anime).2.2.2.2.2.1⟩

/-- C5 counterexample: an enabled asset with TWO active images does not
get both attached — `renderShot` uses `images.find(img => img.isActive)`,
so only the first active image is placed into the request, refuting "for
each active image of each enabled asset". -/
theorem renderShot_second_active_image_ignored :
    twoImgAsset.isActive = true ∧
    (⟨"imgB", true⟩ : AssetImage) ∈ twoImgAsset.images ∧
    Part.inlineData (normalizePayload "imgB")
        ∉ renderShotParts "hero enters" sampleStyle [twoImgAsset] [] ProductionMode.anime := by
  refine ⟨rfl, by decide, by decide⟩

/-- With enough fuel, core's `Nat.toDigitsCore 10` is `decDigits`. -/
theorem toDigitsCore_eq_decDigits :
    ∀ (fuel n : Nat) (acc : List Char), n < fuel →
      Nat.toDigitsCore 10 fuel n acc = decDigits n ++ acc := by
  intro fuel
  induction fuel with
  | zero => intro n acc h; omega
  | succ fuel ih =>
    intro n acc h
    simp only [Nat.toDigitsCore]
    by_cases h10 : n / 10 = 0
    · rw [if_pos h10, decDigits, dif_pos h10]
      rfl
    · rw [if_neg h10, ih (n / 10) _ (by omega)]
      conv_rhs => rw [decDigits]
      rw [dif_neg h10]
      simp

/-- The character data of `Nat.repr` is `decDigits`. -/
theorem repr_data (n : Nat) : (Nat.repr n).data = decDigits n := by
  show (Nat.toDigits 10 n).asString.data = decDigits n
  rw [Nat.toDigits, toDigitsCore_eq_decDigits (n + 1) n [] (by omega)]
  simp [List.asString]

/-- Below ten, `Nat.digitChar` denotes the digit it prints. -/
theorem digitVal_digitChar : ∀ d : Nat, d < 10 → digitVal (Nat.digitChar d) = d := by
  decide

/-- Below ten, `Nat.digitChar` never prints a dash. -/
theorem digitChar_ne_dash : ∀ d : Nat, d < 10 → Nat.digitChar d ≠ '-' := by
  decide

/-- Reading back the decimal digits of `n` gives `n`. -/
theorem decVal_decDigits (n : Nat) : decVal (decDigits n) = n := by
  induction n using Nat.strong_induction_on with
  | _ n ih =>
    by_cases h : n / 10 = 0
    · rw [decDigits, dif_pos h]
      have hd : digitVal (Nat.digitChar (n % 10)) = n % 10 :=
        digitVal_digitChar _ (Nat.mod_lt _ (by omega))
      simp only [decVal, List.foldl_cons, List.foldl_nil, hd]
      omega
    · rw [decDigits, dif_neg h]
      have hrec := ih (n / 10) (Nat.div_lt_self (by omega) (by omega))
      have hd : digitVal (Nat.digitChar (n % 10)) = n % 10 :=
        digitVal_digitChar _ (Nat.mod_lt _ (by omega))
      simp only [decVal, List.foldl_append, List.foldl_cons, List.foldl_nil] at hrec ⊢
      rw [hrec, hd]
      omega

/-- Decimal digit strings determine the number. -/
theorem decDigits_inj {m n : Nat} (h : decDigits m = decDigits n) : m = n := by
  have := congrArg decVal h
  rwa [decVal_decDigits, decVal_decDigits] at this

/-- Decimal digit strings never contain a dash. -/
theorem decDigits_no_dash (n : Nat) : '-' ∉ decDigits n := by
  induction n using Nat.strong_induction_on with
  | _ n ih =>
    have hd : Nat.digitChar (n % 10) ≠ '-' :=
      digitChar_ne_dash _ (Nat.mod_lt _ (by omega))
    by_cases h : n / 10 = 0
    · rw [decDigits, dif_pos h]
      simp [hd.symm]
    · rw [decDigits, dif_neg h]
      intro hmem
      rcases List.mem_append.mp hmem with hl | hr
      · exact ih (n / 10) (Nat.div_lt_self (by omega) (by omega)) hl
      · simp at hr
        exact hd hr.symm

/-- A string splits uniquely at its last dash: if the parts after the
dash are dash-free, both sides of the split agree. -/
theorem append_dash_cancel :
    ∀ (u1 u2 v1 v2 : List Char), u1 ++ '-' :: v1 = u2 ++ '-' :: v2 →
      '-' ∉ v1 → '-' ∉ v2 → u1 = u2 ∧ v1 = v2
  | [], [], v1, v2, h, _, _ => by
    simp only [List.nil_append] at h
    exact ⟨rfl, by injection h⟩
  | [], c :: u2', v1, v2, h, hv1, _ => by
    simp only [List.nil_append, List.cons_append] at h
    obtain ⟨hc, htail⟩ := List.cons.inj h
    exfalso
    apply hv1
    rw [htail]
    exact List.mem_append_right _ (List.mem_cons_self _ _)
  | c :: u1', [], v1, v2, h, _, hv2 => by
    simp only [List.nil_append, List.cons_append] at h
    obtain ⟨hc, htail⟩ := List.cons.inj h
    exfalso
    apply hv2
    rw [← htail]
    exact List.mem_append_right _ (hc ▸ List.mem_cons_self _ _)
  | c :: u1', c' :: u2', v1, v2, h, hv1, hv2 => by
    simp only [List.cons_append] at h
    obtain ⟨hc, htail⟩ := List.cons.inj h
    obtain ⟨hu, hv⟩ := append_dash_cancel u1' u2' v1 v2 htail hv1 hv2
    exact ⟨by rw [hc, hu], hv⟩

/-- The character data of a generated shot identity, split at its last
dash. -/
theorem mkShotId_data (a i : Nat) :
    (mkShotId a i).data = ("shot-".data ++ decDigits a) ++ '-' :: decDigits i := by
  simp [mkShotId, String.data_append, repr_data, List.append_assoc]

/-- Shot identities determine the index: `shot-<t>-<i>` and
`shot-<t'>-<j>` only coincide when `i = j`, whatever the two clock
readings were. -/
theorem mkShotId_inj (a b i j : Nat) (h : mkShotId a i = mkShotId b j) : i = j := by
  have hd := congrArg String.data h
  rw [mkShotId_data, mkShotId_data] at hd
  have := append_dash_cancel _ _ _ _ hd (decDigits_no_dash i) (decDigits_no_dash j)
  exact decDigits_inj this.2

/-- The identities assigned by `assignIds` starting at `idx` are those of
the consecutive indices `idx, idx+1, …`. -/
theorem assignIds_ids (ts : Nat → Nat) :
    ∀ (items : List RawShot) (idx : Nat),
      (assignIds ts items idx).map (fun s => s.id)
        = (List.range' idx items.length).map (fun k => mkShotId (ts k) k)
  | [], idx => by simp [assignIds]
  | item :: rest, idx => by
    simp only [assignIds, List.map_cons, List.length_cons, List.range'_succ]
    rw [assignIds_ids ts rest (idx + 1)]
    rfl

/-- The map `assignIds` preserves the number of items. -/
theorem assignIds_length (ts : Nat → Nat) :
    ∀ (items : List RawShot) (idx : Nat),
      (assignIds ts items idx).length = items.length
  | [], _ => rfl
  | _ :: rest, idx => by
    simp [assignIds, assignIds_length ts rest (idx + 1)]

/-- C3 (amended): on a parseable response array, `deductStoryboard`
always succeeds and returns exactly one shot per array item — so exactly
`count` shots whenever the array has length `count` — with pairwise
distinct identities; but the response handling performs no validation at
all: neither the array's length nor its fields are compared against the
request, so no `MalformedResponse` failure exists on the length-mismatch
path. -/
theorem deductStoryboard_spec (count : Nat) (items : List RawShot) (ts : Nat → Nat) :
    deductStoryboard count (some items) ts = Except.ok (deductProcess items ts) ∧
    (deductProcess items ts).length = items.length ∧
    ((deductProcess items ts).map (fun s => s.id)).Nodup := by
  refine ⟨rfl, assignIds_length ts items 0, ?_⟩
  rw [deductProcess, assignIds_ids ts items 0]
  refine List.Nodup.map_on ?_ (List.nodup_range' 0 items.length)
  intro x _ y _ hxy
  exact mkShotId_inj _ _ _ _ hxy

/-- C3 counterexample: a parsed response of length 2 against a requested
`count` of 4 does NOT fail with any malformed-response condition — the
call succeeds and returns 2 shots. -/
theorem deductStoryboard_no_length_validation :
    resultOk (deductStoryboard 4 (some [sampleRaw, sampleRaw]) (fun _ => 0)) = true ∧
    resultLength (deductStoryboard 4 (some [sampleRaw, sampleRaw]) (fun _ => 0)) = some 2 := by
  exact ⟨rfl, rfl⟩

/-- A list is a prefix (in the executable sense) of itself followed by
anything. -/
theorem isPrefixOf_append_self : ∀ (l r : List Char), l.isPrefixOf (l ++ r) = true
  | [], _ => by simp [List.isPrefixOf]
  | c :: l, r => by simp [List.isPrefixOf, isPrefixOf_append_self l r]

/-- Placeholder identities always start with "placeholder-". -/
theorem placeholderShot_id_starts (ts i : Nat) :
    strStartsWith (placeholderShot ts i).id "placeholder-" = true := by
  show ("placeholder-".data.isPrefixOf
    (("placeholder-" ++ Nat.repr ts ++ "-" ++ Nat.repr i).data)) = true
  simp only [String.data_append, List.append_assoc]
  exact isPrefixOf_append_self _ _

/-- Filtering out placeholder-prefixed identities removes every
synthesized placeholder. -/
theorem placeholders_filter_nil (shotCount : Nat) (phTs : Nat → Nat) :
    ((List.range shotCount).map (fun i => placeholderShot (phTs i) i)).filter
      (fun s => ! strStartsWith s.id "placeholder-") = [] := by
  rw [List.filter_eq_nil_iff]
  intro s hs
  obtain ⟨i, _, rfl⟩ := List.mem_map.mp hs
  simp [placeholderShot_id_starts]

/-- C6: a `handleDeduct` run on an empty (or whitespace-only) script
makes no remote call, signals the script precondition failure (raises
the script highlight flag and logs the script-blocked message), leaves
the shot sequence untouched, and the pipeline status stays `IDLE`. -/
theorem handleDeduct_empty_script (st : PipelineState) (shotCount : Nat)
    (phTs : Nat → Nat) (dr : Except String (List Shot))
    (rr : Nat → Except String String) (fp : String)
    (hscript : strTrim st.script = "") (hidle : st.status = AppStatus.IDLE) :
    (handleDeduct st shotCount phTs dr rr fp).2 = [] ∧
    (handleDeduct st shotCount phTs dr rr fp).1.status = AppStatus.IDLE ∧
    (handleDeduct st shotCount phTs dr rr fp).1.valErrScript = true ∧
    scriptBlockMsg ∈ (handleDeduct st shotCount phTs dr rr fp).1.log ∧
    (handleDeduct st shotCount phTs dr rr fp).1.shots = st.shots := by
  by_cases hsm : st.style.isNone
  · simp [handleDeduct, hscript, hsm, hidle]
  · simp [handleDeduct, hscript, hsm, hidle]

/-- Witness for `handleDeduct_empty_script` on a concrete
whitespace-only script. -/
theorem handleDeduct_empty_script_witness :
    (handleDeduct blankScriptState 4 (fun _ => 0)
        (Except.ok [sampleShotA]) failFirstRender "").2 = [] ∧
    (handleDeduct blankScriptState 4 (fun _ => 0)
        (Except.ok [sampleShotA]) failFirstRender "").1.status = AppStatus.IDLE ∧
    (handleDeduct blankScriptState 4 (fun _ => 0)
        (Except.ok [sampleShotA]) failFirstRender "").1.valErrScript = true ∧
    scriptBlockMsg ∈ (handleDeduct blankScriptState 4 (fun _ => 0)
        (Except.ok [sampleShotA]) failFirstRender "").1.log ∧
    (handleDeduct blankScriptState 4 (fun _ => 0)
        (Except.ok [sampleShotA]) failFirstRender "").1.shots = blankScriptState.shots :=
  handleDeduct_empty_script blankScriptState 4 (fun _ => 0)
    (Except.ok [sampleShotA]) failFirstRender "" (by decide) (by decide)

/-- C7: when the deduction call of a `handleDeduct` run fails, every
placeholder prepended at the start of the run is removed (no shot with a
placeholder identity survives, so none is left flagged generating), the
error is surfaced in the log, and the run ends in `IDLE`. -/
theorem handleDeduct_failure_cleanup (st : PipelineState) (shotCount : Nat)
    (phTs : Nat → Nat) (e : String) (rr : Nat → Except String String) (fp : String)
    (hscript : ¬ strTrim st.script = "") (hstyle : st.style.isNone = false) :
    (handleDeduct st shotCount phTs (Except.error e) rr fp).1.status = AppStatus.IDLE ∧
    (handleDeduct st shotCount phTs (Except.error e) rr fp).1.shots
      = st.shots.filter (fun s => ! strStartsWith s.id "placeholder-") ∧
    (∀ s ∈ (handleDeduct st shotCount phTs (Except.error e) rr fp).1.shots,
      strStartsWith s.id "placeholder-" = false) ∧
    (∀ i, i < shotCount →
      placeholderShot (phTs i) i
        ∉ (handleDeduct st shotCount phTs (Except.error e) rr fp).1.shots) ∧
    (deductFailMsgHead ++ e) ∈ (handleDeduct st shotCount phTs (Except.error e) rr fp).1.log := by
  have hshots : (handleDeduct st shotCount phTs (Except.error e) rr fp).1.shots
      = st.shots.filter (fun s => ! strStartsWith s.id "placeholder-") := by
    simp [handleDeduct, hscript, hstyle, List.filter_append, placeholders_filter_nil]
  refine ⟨by simp [handleDeduct, hscript, hstyle], hshots, ?_, ?_, ?_⟩
  · intro s hs
    rw [hshots] at hs
    have := List.of_mem_filter hs
    simpa using this
  · intro i _ hmem
    rw [hshots] at hmem
    have := List.of_mem_filter hmem
    simp [placeholderShot_id_starts] at this
  · simp [handleDeduct, hscript, hstyle]

/-- Witness for `handleDeduct_failure_cleanup`: a concrete run whose
deduction fails, started over a shot list that already contains one real
shot and one stale placeholder. -/
theorem handleDeduct_failure_cleanup_witness :
    (handleDeduct { idleState with shots := [sampleShotA, placeholderShot 7 0] }
        2 (fun _ => 9) (Except.error "boom") failFirstRender "").1.status
      = AppStatus.IDLE ∧
    (handleDeduct { idleState with shots := [sampleShotA, placeholderShot 7 0] }
        2 (fun _ => 9) (Except.error "boom") failFirstRender "").1.shots
      = [sampleShotA, placeholderShot 7 0].filter
          (fun s => ! strStartsWith s.id "placeholder-") ∧
    (deductFailMsgHead ++ "boom")
      ∈ (handleDeduct { idleState with shots := [sampleShotA, placeholderShot 7 0] }
          2 (fun _ => 9) (Except.error "boom") failFirstRender "").1.log := by
  have h := handleDeduct_failure_cleanup
    { idleState with shots := [sampleShotA, placeholderShot 7 0] }
    2 (fun _ => 9) "boom" failFirstRender "" (by decide) (by decide)
  exact ⟨h.1, h.2.1, h.2.2.2.2⟩

/-- Re-setting an already-absent image field is the identity. -/
theorem shot_update_imageUrl_none {s : Shot} (h : s.imageUrl = none) :
    ({ s with isGenerating := true, imageUrl := none } : Shot)
      = { s with isGenerating := true } := by
  cases s
  simp_all

/-- A shot that no remaining successful render targets survives the
render loop unchanged. -/
theorem renderLoopGo_preserves (rr : Nat → Except String String) (fp : String) :
    ∀ (rest : List Shot) (idx : Nat) (shots : List Shot) (logs : List String) (x : Shot),
      x ∈ shots →
      (∀ j (hj : j < rest.length), ∀ u, rr (idx + j) = Except.ok u →
        (rest.get ⟨j, hj⟩).id ≠ x.id) →
      x ∈ (renderLoopGo rr fp rest idx shots logs).1
  | [], _, _, _, _, hx, _ => hx
  | shot :: rest, idx, shots, logs, x, hx, hsafe => by
    simp only [renderLoopGo]
    cases hr : rr idx with
    | ok url =>
      have hid : shot.id ≠ x.id := by
        have h0 := hsafe 0 (by simp) url (by simpa using hr)
        simpa using h0
      have hx' : x ∈ applyRender shots shot.id url :=
        List.mem_map.mpr ⟨x, hx, by
          have hne : ¬ (x.id = shot.id) := fun h => hid h.symm
          simp [hne]⟩
      exact renderLoopGo_preserves rr fp rest (idx + 1)
        (applyRender shots shot.id url) logs x hx'
        (fun j hj u hu => by
          have hju : rr (idx + (j + 1)) = Except.ok u := by
            rw [show idx + (j + 1) = idx + 1 + j by omega]
            exact hu
          have := hsafe (j + 1) (by simpa using Nat.succ_lt_succ hj) u hju
          simpa using this)
    | error msg =>
      exact renderLoopGo_preserves rr fp rest (idx + 1) shots
        (renderBusyMsg :: logs) x hx
        (fun j hj u hu => by
          have hju : rr (idx + (j + 1)) = Except.ok u := by
            rw [show idx + (j + 1) = idx + 1 + j by omega]
            exact hu
          have := hsafe (j + 1) (by simpa using Nat.succ_lt_succ hj) u hju
          simpa using this)

/-- C10: when the render of the shot at position `i` of a deduction run
fails, that shot's entry survives the whole run exactly as the deduction
produced it: still flagged generating, image still unset — no later step
clears the flag. -/
theorem handleDeduct_render_failure_leaves_shot (st : PipelineState)
    (shotCount : Nat) (phTs : Nat → Nat) (newShots : List Shot)
    (rr : Nat → Except String String) (fp : String) (i : Nat) (msg : String)
    (hscript : ¬ strTrim st.script = "") (hstyle : st.style.isNone = false)
    (hnodup : (newShots.map (fun s => s.id)).Nodup)
    (hi : i < newShots.length) (hfail : rr i = Except.error msg)
    (himg : (newShots.get ⟨i, hi⟩).imageUrl = none) :
    { newShots.get ⟨i, hi⟩ with isGenerating := true, imageUrl := none }
      ∈ (handleDeduct st shotCount phTs (Except.ok newShots) rr fp).1.shots := by
  rw [shot_update_imageUrl_none himg]
  have hgoal : (handleDeduct st shotCount phTs (Except.ok newShots) rr fp).1.shots
      = (renderLoopGo rr fp newShots 0
          (newShots.map (fun s => { s with isGenerating := true })
            ++ ((List.range shotCount).map (fun k => placeholderShot (phTs k) k)
                ++ st.shots).filter (fun s => ! strStartsWith s.id "placeholder-"))
          (deductStartMsg shotCount :: st.log)).1 := by
    simp [handleDeduct, hscript, hstyle]
  rw [hgoal]
  apply renderLoopGo_preserves
  · apply List.mem_append_left
    exact List.mem_map_of_mem _ (newShots.get_mem i hi)
  · intro j hj u hu
    have hj0 : rr j = Except.ok u := by simpa using hu
    have hji : j ≠ i := by
      intro h
      rw [h, hfail] at hj0
      cases hj0
    intro hid
    have hid' : (newShots.map (fun s => s.id)).get ⟨j, by simpa using hj⟩
        = (newShots.map (fun s => s.id)).get ⟨i, by simpa using hi⟩ := by
      simp only [List.get_eq_getElem, List.getElem_map]
      simpa using hid
    have := hnodup.get_inj_iff.mp hid'
    simp at this
    exact hji this

/-- Witness for `handleDeduct_render_failure_leaves_shot`: a concrete
run of two deduced shots whose first render fails. -/
theorem handleDeduct_render_failure_leaves_shot_witness :
    { sampleShotA with isGenerating := true, imageUrl := none }
      ∈ (handleDeduct idleState 2 (fun _ => 0)
          (Except.ok [sampleShotA, sampleShotB]) failFirstRender "").1.shots :=
  handleDeduct_render_failure_leaves_shot idleState 2 (fun _ => 0)
    [sampleShotA, sampleShotB] failFirstRender "" 0 "busy"
    (by decide) (by decide) (by decide) (by decide) rfl (by decide)

/-- C8: over the subsystem's snapshot sequences — whose elements are
canvas bitmap captures (`canvas.toDataURL()` strings, never empty, the
`hsnap` hypothesis) — undo on a sequence of length ≤ 1 clears the canvas
to the blank/black baseline and empties the sequence, and undo on length
≥ 2 removes exactly the last snapshot and redraws exactly the new last
snapshot (the prior bitmap). -/
theorem handleUndo_spec (st : UndoState) (input : String)
    (hin : st.purifyInput = some input)
    (hsnap : ∀ s ∈ st.maskHistory input, ¬ s = "") :
    ((st.maskHistory input).length ≤ 1 →
      (handleUndo st).canvas = none ∧ (handleUndo st).maskHistory input = []) ∧
    (2 ≤ (st.maskHistory input).length →
      (handleUndo st).maskHistory input = (st.maskHistory input).dropLast ∧
      (st.maskHistory input).dropLast ≠ [] ∧
      (handleUndo st).canvas = ((st.maskHistory input).dropLast).getLast?) := by
  constructor
  · intro hle
    simp [handleUndo, hin, if_pos hle]
  · intro hge
    have hgt : ¬ (st.maskHistory input).length ≤ 1 := by omega
    have hne : (st.maskHistory input).dropLast ≠ [] := by
      intro hnil
      have := List.length_dropLast (st.maskHistory input)
      rw [hnil] at this
      simp at this
      omega
    obtain ⟨last, hlast⟩ : ∃ last, ((st.maskHistory input).dropLast).getLast? = some last :=
      ⟨_, List.getLast?_eq_getLast_of_ne_nil hne⟩
    have hlast_mem : last ∈ (st.maskHistory input).dropLast := by
      rw [List.getLast?_eq_getLast_of_ne_nil hne] at hlast
      injection hlast with hlast'
      rw [← hlast']
      exact List.getLast_mem hne
    have hlast_ne : ¬ last = "" :=
      hsnap last (List.dropLast_subset _ hlast_mem)
    refine ⟨by simp [handleUndo, hin, if_neg hgt], hne, ?_⟩
    rw [hlast]
    simp [handleUndo, hin, if_neg hgt, hlast, hlast_ne]

/-- Witness for `handleUndo_spec`: a one-snapshot mask clears to the
baseline and empties; a two-snapshot mask pops to one snapshot and
redraws it. -/
theorem handleUndo_spec_witness :
    ((handleUndo undoStateShort).canvas = none ∧
      (handleUndo undoStateShort).maskHistory "img.png" = []) ∧
    ((handleUndo undoStateLong).maskHistory "img.png" = ["snap1"] ∧
      (handleUndo undoStateLong).canvas = some "snap1") :=
  ⟨(handleUndo_spec undoStateShort "img.png" rfl (by decide)).1 (by decide),
   ((handleUndo_spec undoStateLong "img.png" rfl (by decide)).2 (by decide)).1,
   ((handleUndo_spec undoStateLong "img.png" rfl (by decide)).2 (by decide)).2.2⟩

end StoryboardSpec
